import Mathlib

/-
Verification development for scripts/site_metrics_playwright.py.

The script is embedded shallowly.  Pure Python code (string handling,
sitemap/robots parsing logic, the crawl loop, word counting, result
assembly) is translated into executable Lean definitions.  External
collaborators (the playwright HTTP/rendering fetchers, the gzip library,
xml.etree.ElementTree's byte-level XML reader, BeautifulSoup's byte-level
HTML reader, and urllib's urljoin) are modelled as components of an
explicit environment record: each is an arbitrary pure function supplied
by the environment, and theorems quantify over the environment.  The
recursive sitemap walk, which has no cycle guard in the source, is
embedded with an explicit fuel parameter: a result of none means the
recursion did not complete within the given fuel, and divergence is the
statement that every fuel amount is insufficient.

Modelling conventions, noted once here:
  * bytes are List Nat;
  * Python string truthiness (None or empty) is Option plus an emptiness
    test;
  * Python set-plus-list first-seen deduplication is dedupKeepFirst;
  * the returned order of list(visited) (a Python set) is unspecified in
    Python; the model keeps insertion order, and no claim depends on the
    order, only on membership and length;
  * str.strip and the regex class backslash-s are modelled with ASCII
    whitespace (Char.isWhitespace), str.lower with Char.toLower, which
    agree with Python on the ASCII inputs exercised here;
  * Python floats are modelled as exact rationals, and round(x, 2) as
    round-half-to-even on rationals at two decimal places.
-/

namespace SiteMetrics

/-- Model of str.lower: per-character lowercasing. -/
def pyLower (s : String) : String :=
  String.mk (s.data.map Char.toLower)

/-- Does the character list pre followed by post contain needle as a
contiguous run starting at the front of post?  Helper for substring
search. -/
def prefixMatches : List Char → List Char → Bool
  | [], _ => true
  | _ :: _, [] => false
  | a :: as, b :: bs => a = b && prefixMatches as bs

/-- Model of the Python "needle in haystack" substring test. -/
def hasSub (needle : List Char) : List Char → Bool
  | [] => prefixMatches needle []
  | b :: bs => prefixMatches needle (b :: bs) || hasSub needle bs

/-- String-level substring containment: needle occurs inside hay. -/
def strContains (hay needle : String) : Bool :=
  hasSub needle.data hay.data

/-- Model of str.strip with no argument: drop ASCII whitespace from both
ends. -/
def pyStrip (s : String) : String :=
  String.mk (((s.data.dropWhile Char.isWhitespace).reverse.dropWhile
    Char.isWhitespace).reverse)

/-- Model of str.startswith. -/
def strStarts (s p : String) : Bool :=
  prefixMatches p.data s.data

/-- Model of str.endswith. -/
def strEnds (s p : String) : Bool :=
  prefixMatches p.data.reverse s.data.reverse

/-- Model of str.join over a separator. -/
def joinWith (sep : String) : List String → String
  | [] => ""
  | [x] => x
  | x :: y :: rest => x ++ sep ++ joinWith sep (y :: rest)

/-- Split a character list at the first colon: some (before, after), or
none when there is no colon.  Models str.find followed by slicing, and
str.split with maxsplit 1. -/
def splitFirstColon : List Char → Option (List Char × List Char)
  | [] => none
  | c :: rest =>
    if c = ':' then some ([], rest)
    else
      match splitFirstColon rest with
      | some (pre, post) => some (c :: pre, post)
      | none => none

/-- Characters urllib.parse allows inside a URL scheme. -/
def schemeChar (c : Char) : Bool :=
  c.isAlphanum || c = '+' || c = '-' || c = '.'

/-- urllib.parse accepts a scheme prefix only when it is non-empty,
starts with an ASCII letter, and consists of scheme characters. -/
def validScheme (pre : List Char) : Bool :=
  match pre with
  | [] => false
  | c :: _ => c.isAlpha && pre.all schemeChar

/-- A character that may appear inside the netloc component (the netloc
extends up to the first slash, question mark, or hash). -/
def netlocChar (c : Char) : Bool :=
  !(c = '/' || c = '?' || c = '#')

/-- A character that may appear inside the path component (the path
extends up to the first question mark or hash). -/
def pathChar (c : Char) : Bool :=
  !(c = '?' || c = '#')

/-- The components of urllib.parse.urlparse used by the script. -/
structure UrlParts where
  scheme : String
  netloc : String
  path : String

/-- Model of urllib.parse.urlparse restricted to the scheme, netloc and
path components, the only ones the script reads.  The scheme is
recognised case-insensitively and returned lower-cased; the netloc is
returned with its case preserved, exactly as urllib does. -/
def pyUrlparse (url : String) : UrlParts :=
  let cs := url.data
  let sr : List Char × List Char :=
    match splitFirstColon cs with
    | some (pre, post) =>
      if validScheme pre then (pre.map Char.toLower, post) else ([], cs)
    | none => ([], cs)
  match sr.2 with
  | '/' :: '/' :: r =>
    let netloc := r.takeWhile netlocChar
    let after := r.dropWhile netlocChar
    ⟨String.mk sr.1, String.mk netloc, String.mk (after.takeWhile pathChar)⟩
  | rest => ⟨String.mk sr.1, "", String.mk (rest.takeWhile pathChar)⟩

/-- Source normalize_base_url (lines 30-39).  ValueError is modelled as
Except.error carrying the source's message. -/
def normalize_base_url (url : String) : Except String String :=
  let u := pyStrip url
  if u = "" then Except.error "website is leeg"
  else
    let u :=
      if !strStarts u "http://" && !strStarts u "https://"
      then "https://" ++ u else u
    let parsed := pyUrlparse u
    if parsed.netloc = "" then Except.error "website url is ongeldig"
    else Except.ok (parsed.scheme ++ "://" ++ parsed.netloc ++ "/")

/-- Source same_host (lines 42-43): case-insensitive netloc comparison. -/
def same_host (a b : String) : Bool :=
  pyLower (pyUrlparse a).netloc == pyLower (pyUrlparse b).netloc

/-- Source is_probably_cloudflare_block (lines 46-53). -/
def is_probably_cloudflare_block (html_or_text : String) : Bool :=
  let t := pyLower html_or_text
  strContains t "attention required" ||
  strContains t "cloudflare" ||
  strContains t "please enable cookies" ||
  strContains t "sorry, you have been blocked"

/-- Model of str.splitlines restricted to the line enders \n, \r and
\r\n (the ones that occur in the inputs considered); no trailing empty
line is produced, matching Python. -/
def splitLinesAux (cur : List Char) : List Char → List (List Char)
  | [] => if cur.isEmpty then [] else [cur.reverse]
  | '\r' :: '\n' :: rest => cur.reverse :: splitLinesAux [] rest
  | '\r' :: rest => cur.reverse :: splitLinesAux [] rest
  | '\n' :: rest => cur.reverse :: splitLinesAux [] rest
  | c :: rest => splitLinesAux (c :: cur) rest

/-- str.splitlines on a String. -/
def pySplitlines (s : String) : List String :=
  (splitLinesAux [] s.data).map String.mk

/-- Source parse_robots_for_sitemaps (lines 56-68): line-oriented scan
for case-insensitive "sitemap:" directives; the value is the trimmed
text after the first colon; empty values are skipped. -/
def parse_robots_for_sitemaps (robots_text : String) : List String :=
  (pySplitlines robots_text).filterMap (fun line =>
    let line := pyStrip line
    if line = "" then none
    else if strStarts (pyLower line) "sitemap:" then
      match splitFirstColon line.data with
      | some (_, post) =>
        let sm := pyStrip (String.mk post)
        if sm = "" then none else some sm
      | none => none
    else none)

mutual

/-- An XML element as produced by xml.etree.ElementTree: a (possibly
namespace-qualified) tag, the text before the first child (none when
absent), and the child elements in document order.  The children are a
mutually-defined forest rather than a List so that functions over the
tree are compiled by structural recursion. -/
inductive XmlElem where
  | mk (tag : String) (textContent : Option String) (children : XmlForest)

/-- A sequence of XML elements in document order. -/
inductive XmlForest where
  | nil
  | cons (e : XmlElem) (rest : XmlForest)

end

/-- The tag of an XML element. -/
def XmlElem.tag : XmlElem → String
  | .mk t _ _ => t

/-- The text of an XML element (ElementTree .text). -/
def XmlElem.textContent : XmlElem → Option String
  | .mk _ x _ => x

/-- The children of an XML element. -/
def XmlElem.children : XmlElem → XmlForest
  | .mk _ _ cs => cs

/-- Build a forest from a list of elements. -/
def xmlForestOf (l : List XmlElem) : XmlForest :=
  l.foldr XmlForest.cons XmlForest.nil

/-- Source strip_ns (lines 71-72): the part of the tag after the first
closing brace, or the whole tag when there is none. -/
def strip_ns (tag : String) : String :=
  if tag.data.contains '}' then
    String.mk ((tag.data.dropWhile (fun c => !(c = '}'))).tail)
  else tag

mutual

/-- An element together with all its proper descendants, in document
(pre-order) order. -/
def xmlSelfAndDescendants : XmlElem → List XmlElem
  | XmlElem.mk t x cs => XmlElem.mk t x cs :: xmlDescendants cs

/-- All elements of a forest and their descendants, in document
(pre-order) order: models ElementTree findall with a descendant axis
when applied to the children of the root. -/
def xmlDescendants : XmlForest → List XmlElem
  | XmlForest.nil => []
  | XmlForest.cons e rest => xmlSelfAndDescendants e ++ xmlDescendants rest

end

/-- The first element of a forest satisfying the test. -/
def xmlForestFind (p : XmlElem → Bool) : XmlForest → Option XmlElem
  | XmlForest.nil => none
  | XmlForest.cons e rest => if p e then some e else xmlForestFind p rest

/-- The first direct child whose local name matches, in any namespace:
models ElementTree find with a wildcard-namespace tag. -/
def findChildByLocalName (name : String) (e : XmlElem) : Option XmlElem :=
  xmlForestFind (fun c => strip_ns c.tag = name) e.children

/-- The loc extraction the source performs on one url/sitemap element:
the first direct loc child, kept only when its text is truthy (present
and non-empty), trimmed.  Models lines 87-89 and 92-94. -/
def locTextTrimmed (e : XmlElem) : Option String :=
  match findChildByLocalName "loc" e with
  | none => none
  | some locEl =>
    match locEl.textContent with
    | none => none
    | some t => if t = "" then none else some (pyStrip t)

/-- Source parse_sitemap_xml (lines 75-96).  ET.fromstring is an
external byte-level XML reader, supplied as the fromstring argument; a
ParseError is its none result. -/
def parse_sitemap_xml (fromstring : List Nat → Option XmlElem)
    (xml_bytes : List Nat) : List String × List String :=
  match fromstring xml_bytes with
  | none => ([], [])
  | some root =>
    let root_tag := pyLower (strip_ns root.tag)
    if root_tag = "urlset" then
      (((xmlDescendants root.children).filter
          (fun e => strip_ns e.tag = "url")).filterMap locTextTrimmed, [])
    else if root_tag = "sitemapindex" then
      ([], ((xmlDescendants root.children).filter
          (fun e => strip_ns e.tag = "sitemap")).filterMap locTextTrimmed)
    else ([], [])

mutual

/-- An HTML node as produced by BeautifulSoup: either a text node or an
element with a tag, attributes, and children in document order.  As with
XmlElem, the children are a mutually-defined forest so that functions
over the tree are compiled by structural recursion. -/
inductive HtmlNode where
  | text (s : String)
  | elem (tag : String) (attrs : List (String × String)) (children : HtmlForest)

/-- A sequence of HTML nodes in document order. -/
inductive HtmlForest where
  | nil
  | cons (n : HtmlNode) (rest : HtmlForest)

end

/-- Build a forest from a list of nodes. -/
def htmlForestOf (l : List HtmlNode) : HtmlForest :=
  l.foldr HtmlForest.cons HtmlForest.nil

/-- A playwright APIResponse carrying raw bytes. -/
structure Response where
  status : Nat
  body : List Nat

/-- A playwright APIResponse carrying decoded text. -/
structure TextResponse where
  status : Nat
  text : String

/-- The external collaborators of the script, as one capability record.
request and requestText are context.request.get (none models a raised
exception or timeout); gunzip is gzip.decompress (none models a raised
exception); decode is bytes.decode with utf-8 and errors ignore;
fromstring is ET.fromstring (none models ParseError); navigate is
page.goto followed by page.content (none models a raised exception);
soup is BeautifulSoup with the lxml reader; urljoin is
urllib.parse.urljoin. -/
structure Env where
  request : String → Option Response
  requestText : String → Option TextResponse
  gunzip : List Nat → Option (List Nat)
  decode : List Nat → String
  fromstring : List Nat → Option XmlElem
  navigate : String → Option String
  soup : String → HtmlForest
  urljoin : String → String → String

/-- Source fetch_bytes_with_request (lines 99-111): none on exception,
non-200 status, or empty body.  (The "if not resp" check on line 102 is
subsumed: a playwright response object is never falsy, and an absent
response is the exception case.) -/
def fetch_bytes_with_request (request : String → Option Response)
    (url : String) : Option (List Nat) :=
  match request url with
  | none => none
  | some resp =>
    if resp.status ≠ 200 then none
    else if resp.body.isEmpty then none
    else some resp.body

/-- Source fetch_text_with_request (lines 114-126): none on exception,
non-200 status, or empty text. -/
def fetch_text_with_request (requestText : String → Option TextResponse)
    (url : String) : Option String :=
  match requestText url with
  | none => none
  | some resp =>
    if resp.status ≠ 200 then none
    else if resp.text = "" then none
    else some resp.text

/-- Source DEFAULT_SITEMAP_CANDIDATES (lines 14-19). -/
def DEFAULT_SITEMAP_CANDIDATES : List String :=
  ["/sitemap.xml", "/sitemap_index.xml", "/sitemap-index.xml", "/sitemap.xml.gz"]

/-- Model of str.lstrip with a slash charset. -/
def lstripSlashes (p : String) : String :=
  String.mk (p.data.dropWhile (fun c => c = '/'))

/-- First-seen-order deduplication with an explicit seen accumulator:
models the seen-set plus unique-list loops on lines 150-156 and
190-199. -/
def dedupKeepFirst (seen : List String) : List String → List String
  | [] => []
  | u :: rest =>
    if u ∈ seen then dedupKeepFirst seen rest
    else u :: dedupKeepFirst (u :: seen) rest

/-- Source try_discover_sitemaps (lines 139-156): robots-declared
sitemaps (when the robots fetch succeeds and is not block-classified)
followed by the well-known candidates, deduplicated first-seen. -/
def try_discover_sitemaps (env : Env) (base_url : String) : List String :=
  let robots_url := env.urljoin base_url "robots.txt"
  let fromRobots :=
    match fetch_text_with_request env.requestText robots_url with
    | none => []
    | some robots_text =>
      if is_probably_cloudflare_block robots_text then []
      else parse_robots_for_sitemaps robots_text
  dedupKeepFirst []
    (fromRobots ++
     DEFAULT_SITEMAP_CANDIDATES.map (fun p => env.urljoin base_url (lstripSlashes p)))

/-- The prelude of fetch_all_sitemap_urls before any recursion (source
lines 160-174): fetch the bytes, gzip-decompress when the sitemap URL
string ends in .gz, reject block-classified payloads, and parse.  A
result of none means one of the early returns on lines 162, 169 or 172
fired, each of which returns the empty list. -/
def sitemapFetchStage (env : Env) (sitemap_url : String) :
    Option (List String × List String) :=
  match fetch_bytes_with_request env.request sitemap_url with
  | none => none
  | some raw =>
    match (if strEnds sitemap_url ".gz" then env.gunzip raw else some raw) with
    | none => none
    | some content =>
      if is_probably_cloudflare_block (env.decode content) then none
      else some (parse_sitemap_xml env.fromstring content)

/-- The sequential child-resolution loop of source lines 178-182: each
child is resolved in order and the results are concatenated; a child
whose resolution does not complete makes the whole loop incomplete. -/
def resolveChildren (f : String → Option (List String)) :
    List String → Option (List String)
  | [] => some []
  | c :: rest =>
    match f c, resolveChildren f rest with
    | some a, some b => some (a ++ b)
    | _, _ => none

/-- Source fetch_all_sitemap_urls (lines 159-182), with fuel making the
unguarded recursion explicit: none means the recursion did not complete
within the fuel.  When the parsed urls list is non-empty it is returned
and the children are ignored; otherwise the first max_children children
are resolved recursively and concatenated. -/
def fetch_all_sitemap_urls (env : Env) :
    Nat → String → Nat → Option (List String)
  | 0, _, _ => none
  | fuel + 1, sitemap_url, max_children =>
    match sitemapFetchStage env sitemap_url with
    | none => some []
    | some (urls, children) =>
      if urls.isEmpty then
        resolveChildren
          (fun child => fetch_all_sitemap_urls env fuel child max_children)
          (children.take max_children)
      else some urls

/-- The per-candidate normalization of source lines 190-199: trim each
URL, drop empties, deduplicate first-seen. -/
def cleanDiscovered (urls : List String) : List String :=
  dedupKeepFirst [] ((urls.map pyStrip).filter (fun u => u ≠ ""))

/-- The candidate loop of source lines 187-200: the first candidate
whose resolution is non-empty wins; later candidates are not tried. -/
def discoverLoop (env : Env) (fuel : Nat) : List String → Option (List String)
  | [] => some []
  | sm :: rest =>
    match fetch_all_sitemap_urls env fuel sm 50 with
    | none => none
    | some urls =>
      if urls.isEmpty then discoverLoop env fuel rest
      else some (cleanDiscovered urls)

/-- Source discover_urls_from_sitemaps (lines 185-200). -/
def discover_urls_from_sitemaps (env : Env) (fuel : Nat)
    (base_url : String) : Option (List String) :=
  discoverLoop env fuel (try_discover_sitemaps env base_url)

/-- Model of urllib.parse.urldefrag's defragmented component: the URL up
to the first hash. -/
def urldefrag (url : String) : String :=
  String.mk (url.data.takeWhile (fun c => !(c = '#')))

mutual

/-- The href values of this node's anchor element (when it is one
carrying an href attribute) and of all anchors below it, in document
(pre-order) order: models soup.find_all with tag a and href true.  (The
lxml reader lower-cases HTML tag names while building the tree, so the
model matches the tag exactly.) -/
def findAnchorsN : HtmlNode → List String
  | HtmlNode.text _ => []
  | HtmlNode.elem tag attrs cs =>
    (if tag = "a" then
      match (attrs.find? (fun p => p.fst = "href")).map Prod.snd with
      | some v => [v]
      | none => []
     else []) ++ findAnchorsF cs

/-- The href values of all anchors of a forest, in document order. -/
def findAnchorsF : HtmlForest → List String
  | HtmlForest.nil => []
  | HtmlForest.cons n rest => findAnchorsN n ++ findAnchorsF rest

end

/-- Source extract_internal_links (lines 203-218): each href is trimmed
(skipping empties), resolved against the page URL, defragmented, kept
only when its host matches the base host and its scheme is http or
https. -/
def extract_internal_links (env : Env) (html : String)
    (page_url base_url : String) : List String :=
  (findAnchorsF (env.soup html)).filterMap (fun h0 =>
    let href := pyStrip h0
    if href = "" then none
    else
      let absolute := urldefrag (env.urljoin page_url href)
      if !same_host absolute base_url then none
      else if !((pyUrlparse absolute).scheme = "http" ||
                (pyUrlparse absolute).scheme = "https") then none
      else some absolute)

/-- Pop the front of the queue past already-visited entries: the first
URL not in visited together with the queue behind it, or none when every
queued URL was already visited.  This folds the continue-on-visited
iterations of the while loop (lines 226-228) into one step; those
iterations change neither visited nor the guard. -/
def popNext (visited : List String) : List String → Option (String × List String)
  | [] => none
  | u :: rest => if u ∈ visited then popNext visited rest else some (u, rest)

/-- The while loop of fallback_crawl_internal (source lines 225-244).
The budget argument is the value limit minus the number of visited URLs,
so the loop guard len(visited) < limit is exactly budget being positive;
every recursive call decreases the budget because crossing the guard
visits exactly one new URL.  The URL is marked visited before
navigation; a navigation failure or a block-classified page leaves it
visited and adds no links; otherwise the same-host links not already
visited are appended to the queue. -/
def crawlGo (env : Env) (base_url : String) :
    Nat → List String → List String → List String
  | 0, _, visited => visited
  | budget + 1, queue, visited =>
    match popNext visited queue with
    | none => visited
    | some (url, rest) =>
      let visited1 := visited ++ [url]
      match env.navigate url with
      | none => crawlGo env base_url budget rest visited1
      | some html =>
        if is_probably_cloudflare_block html then
          crawlGo env base_url budget rest visited1
        else
          crawlGo env base_url budget
            (rest ++ (extract_internal_links env html url base_url).filter
              (fun u => !visited1.contains u))
            visited1

/-- Source fallback_crawl_internal (lines 221-246): frontier seeded with
the base URL, empty visited set, budget equal to the visit cap. -/
def fallback_crawl_internal (env : Env) (base_url : String)
    (limit : Nat) : List String :=
  crawlGo env base_url limit [base_url] []

/-- The tags whose subtrees word counting removes (source line 251). -/
def blockedTags : List String := ["script", "style", "noscript"]

mutual

/-- Remove every script, style and noscript subtree below (or at) this
node; none when the node itself is such a subtree.  With stripBlockedF
this models the decompose loop on lines 251-252. -/
def stripBlockedN : HtmlNode → Option HtmlNode
  | HtmlNode.text s => some (HtmlNode.text s)
  | HtmlNode.elem tag attrs cs =>
    if tag ∈ blockedTags then none
    else some (HtmlNode.elem tag attrs (stripBlockedF cs))

/-- Remove every script, style and noscript subtree of a forest. -/
def stripBlockedF : HtmlForest → HtmlForest
  | HtmlForest.nil => HtmlForest.nil
  | HtmlForest.cons n rest =>
    match stripBlockedN n with
    | none => stripBlockedF rest
    | some m => HtmlForest.cons m (stripBlockedF rest)

end

mutual

/-- The text contents at or below a node in document order. -/
def htmlTextsN : HtmlNode → List String
  | HtmlNode.text s => [s]
  | HtmlNode.elem _ _ cs => htmlTextsF cs

/-- All text node contents of a forest in document order: the strings
that soup.get_text joins with its separator. -/
def htmlTextsF : HtmlForest → List String
  | HtmlForest.nil => []
  | HtmlForest.cons n rest => htmlTextsN n ++ htmlTextsF rest

end

/-- Collapse whitespace runs to single spaces: models the regex
substitution of a whitespace-plus pattern by one space on line 255.  The
Boolean argument records whether the previous character was whitespace. -/
def collapseWsFlag : Bool → List Char → List Char
  | _, [] => []
  | prevWs, c :: rest =>
    if c.isWhitespace then
      if prevWs then collapseWsFlag true rest
      else ' ' :: collapseWsFlag true rest
    else c :: collapseWsFlag false rest

/-- Whitespace collapsing followed by trimming (line 255). -/
def pyCollapseWs (s : String) : String :=
  pyStrip (String.mk (collapseWsFlag false s.data))

/-- A character of the word class of the regex on line 259: ASCII
letters, digits and underscore, plus the Latin-1 range from 0xC0 to
0xFF.  (Python's backslash-w also accepts word characters beyond
Latin-1; the inputs considered here stay within this class, on which the
regex findall of the bounded word pattern counts exactly the maximal
runs of class characters.) -/
def wordChar (c : Char) : Bool :=
  c.isAlphanum || c = '_' || (0xC0 ≤ c.toNat && c.toNat ≤ 0xFF)

/-- Count maximal runs of word characters; the Boolean argument records
whether the previous character was a word character. -/
def countTokens : Bool → List Char → Nat
  | _, [] => 0
  | inWord, c :: rest =>
    if wordChar c then
      if inWord then countTokens true rest
      else countTokens true rest + 1
    else countTokens false rest

/-- Source word_count_from_html (lines 249-260), over the BeautifulSoup
tree (the byte-level HTML reader is the environment's soup component):
remove script, style and noscript subtrees, join the remaining text with
spaces, collapse whitespace and trim, return 0 on empty text, otherwise
count word tokens. -/
def word_count_from_html (doc : HtmlForest) : Nat :=
  let cleaned := stripBlockedF doc
  let text := pyCollapseWs (joinWith " " (htmlTextsF cleaned))
  if text = "" then 0 else countTokens false text.data

/-- Source compute_average_words (lines 263-284): over the first
sample_size URLs, skip navigation failures, block-classified pages and
zero word counts; average the remaining counts as an exact rational;
return 0 when nothing contributed. -/
def compute_average_words (env : Env) (urls : List String)
    (sample_size : Nat) : ℚ :=
  let counts := (urls.take sample_size).filterMap (fun u =>
    match env.navigate u with
    | none => none
    | some html =>
      if is_probably_cloudflare_block html then none
      else
        let wc := word_count_from_html (env.soup html)
        if 0 < wc then some wc else none)
  if counts.isEmpty then 0
  else mkRat (counts.sum : ℤ) counts.length

/-- Code-point lexicographic comparison of character lists. -/
def lexLeChars : List Char → List Char → Bool
  | [], _ => true
  | _ :: _, [] => false
  | x :: xs, y :: ys => if x = y then lexLeChars xs ys else decide (x < y)

/-- Code-point lexicographic string comparison, the order Python's
sorted uses on strings. -/
def strLeB (a b : String) : Bool :=
  lexLeChars a.data b.data

/-- Insert into a sorted list, keeping earlier equal elements first. -/
def insertSorted (x : String) : List String → List String
  | [] => [x]
  | y :: ys => if strLeB x y then x :: y :: ys else y :: insertSorted x ys

/-- Insertion sort by code-point order. -/
def insertionSortStr : List String → List String
  | [] => []
  | x :: xs => insertSorted x (insertionSortStr xs)

/-- Model of sorted(set(urls)) on line 316: the lexicographically sorted
list of the distinct elements.  Any sorting algorithm yields the same
list on a duplicate-free input, so insertion sort is an exact model. -/
def pySortedDistinct (urls : List String) : List String :=
  insertionSortStr (dedupKeepFirst [] urls)

/-- Python round to an integer: round half to even on an exact
rational.  The fractional part of q is fracNum over q.den, so comparing
it against one half is comparing twice fracNum against the
denominator. -/
def pyRoundHalfEven (q : ℚ) : ℤ :=
  let n := q.floor
  let fracNum := q.num - n * (q.den : ℤ)
  if 2 * fracNum < (q.den : ℤ) then n
  else if (q.den : ℤ) < 2 * fracNum then n + 1
  else if n % 2 = 0 then n else n + 1

/-- Python round(x, 2) on an exact rational: the nearest-even multiple
of one hundredth.  mkRat builds the rational quotient; the inner mkRat
is one hundred times q. -/
def pyRound2 (q : ℚ) : ℚ :=
  mkRat (pyRoundHalfEven (mkRat (q.num * 100) q.den)) 100

/-- Source Result dataclass (lines 22-27), with the float field as an
exact rational. -/
structure Result where
  website : String
  total_pages : Nat
  average_words : ℚ
  id : String

/-- The URL set main works with after discovery (lines 311-313): the
sitemap-discovered URLs, or the fallback crawl with the default limit of
2000 when sitemaps yielded nothing; none when the sitemap recursion does
not complete within the fuel. -/
def collectedUrls (env : Env) (fuel : Nat) (base_url : String) :
    Option (List String) :=
  match discover_urls_from_sitemaps env fuel base_url with
  | none => none
  | some us =>
    some (if us.isEmpty then fallback_crawl_internal env base_url 2000 else us)

/-- Source main (lines 287-335), from the two stripped arguments to the
assembled Result.  The argument-count check, browser set-up and printing
are external; the warm-up navigation (line 309) only exercises the
environment and contributes nothing to the pure state, so it has no
counterpart here.  A fatal ValueError from normalization, or sitemap
recursion that does not complete within the fuel, is none. -/
def runMain (env : Env) (fuel : Nat) (argv1 argv2 : String) : Option Result :=
  let given_id := pyStrip argv1
  let given_website := pyStrip argv2
  match normalize_base_url given_website with
  | Except.error _ => none
  | Except.ok base_url =>
    match collectedUrls env fuel base_url with
    | none => none
    | some found =>
      let urls := found.filter (fun u => same_host u base_url)
      let urls := pySortedDistinct urls
      let total_pages := urls.length
      let average_words := compute_average_words env urls 10
      some ⟨given_website, total_pages, pyRound2 average_words, given_id⟩

/-! ### Reference definitions written from the specification's words

Each definition below follows the wording of spec.md (or, for the one
counterexample reference, the claim's wording) rather than the source,
for comparison with the source embeddings above. -/

/-- Spec 4.3 contract for parseSitemap, stated from the spec's words:
match on the case-insensitive namespace-free root name; urlset collects
every descendant url's loc text, sitemapindex every descendant sitemap's
loc text; anything else, or malformed XML, is empty. -/
def specCollectLocs (tagName : String) (root : XmlElem) : List String :=
  (xmlDescendants root.children).filterMap (fun e =>
    if strip_ns e.tag = tagName then
      (findChildByLocalName "loc" e).bind (fun locEl =>
        locEl.textContent.bind (fun t => if t = "" then none else some (pyStrip t)))
    else none)

/-- Spec 4.3 parseSitemap. -/
def specParseSitemap (fromstring : List Nat → Option XmlElem)
    (b : List Nat) : List String × List String :=
  match fromstring b with
  | none => ([], [])
  | some root =>
    match pyLower (strip_ns root.tag) with
    | "urlset" => (specCollectLocs "url" root, [])
    | "sitemapindex" => ([], specCollectLocs "sitemap" root)
    | _ => ([], [])

/-- Concatenation of a list of lists, in order. -/
def concatAll (ls : List (List String)) : List String :=
  ls.foldr (fun a b => a ++ b) []

/-- Spec 4.5 resolveSitemapURLs, amended at the gzip step: the source
keys decompression on the full URL string ending in .gz, not on the URL
path.  Steps follow the spec's wording otherwise: failed fetch is empty;
failed decompression is empty; block-classified payload is empty; a
non-empty leaf urls list is returned with children ignored; otherwise
the first maxChildren children are resolved recursively and their
results concatenated in order. -/
def resolveSitemapURLs (env : Env) :
    Nat → String → Nat → Option (List String)
  | 0, _, _ => none
  | fuel + 1, sitemapURL, maxChildren =>
    match fetch_bytes_with_request env.request sitemapURL with
    | none => some []
    | some raw =>
      match (if strEnds sitemapURL ".gz" then env.gunzip raw else some raw) with
      | none => some []
      | some payload =>
        if is_probably_cloudflare_block (env.decode payload) then some []
        else
          match parse_sitemap_xml env.fromstring payload with
          | (u :: us, _) => some (u :: us)
          | ([], children) =>
            ((children.take maxChildren).mapM
              (fun c => resolveSitemapURLs env fuel c maxChildren)).map concatAll

/-- Claim C1's reference algorithm exactly as the claim states it: the
gzip step fires when the URL PATH ends in .gz. -/
def resolveSitemapURLsClaim (env : Env) :
    Nat → String → Nat → Option (List String)
  | 0, _, _ => none
  | fuel + 1, sitemapURL, maxChildren =>
    match fetch_bytes_with_request env.request sitemapURL with
    | none => some []
    | some raw =>
      match (if strEnds (pyUrlparse sitemapURL).path ".gz"
             then env.gunzip raw else some raw) with
      | none => some []
      | some payload =>
        if is_probably_cloudflare_block (env.decode payload) then some []
        else
          match parse_sitemap_xml env.fromstring payload with
          | (u :: us, _) => some (u :: us)
          | ([], children) =>
            ((children.take maxChildren).mapM
              (fun c => resolveSitemapURLsClaim env fuel c maxChildren)).map concatAll

/-- Spec 4.5 well-known sitemap locations, as paths relative to the
base. -/
def wellKnownSitemapPaths : List String :=
  ["sitemap.xml", "sitemap_index.xml", "sitemap-index.xml", "sitemap.xml.gz"]

/-- Spec 4.5 discoverCandidates: robots-declared sitemaps (only when the
robots fetch succeeds and the text is not block-classified) followed by
the well-known set, deduplicated preserving first-seen order. -/
def discoverCandidates (env : Env) (base : String) : List String :=
  let robotsSitemaps :=
    match fetch_text_with_request env.requestText (env.urljoin base "robots.txt") with
    | some txt =>
      if is_probably_cloudflare_block txt then []
      else parse_robots_for_sitemaps txt
    | none => []
  dedupKeepFirst [] (robotsSitemaps ++ wellKnownSitemapPaths.map (env.urljoin base))

/-- Spec 4.5 discoverViaSitemaps normalization: trim, drop empties,
deduplicate preserving first-seen order. -/
def specNormalizeDiscovered (urls : List String) : List String :=
  dedupKeepFirst [] ((urls.map pyStrip).filter (fun u => u ≠ ""))

/-- Spec 4.5 discoverViaSitemaps candidate loop: the first candidate
whose resolution is non-empty wins and its normalization is returned at
once; when no candidate yields anything the result is empty. -/
def specFirstYield (env : Env) (fuel : Nat) : List String → Option (List String)
  | [] => some []
  | c :: rest =>
    match resolveSitemapURLs env fuel c 50 with
    | none => none
    | some [] => specFirstYield env fuel rest
    | some (u :: us) => some (specNormalizeDiscovered (u :: us))

/-- Spec 4.5 discoverViaSitemaps. -/
def discoverViaSitemaps (env : Env) (fuel : Nat) (base : String) :
    Option (List String) :=
  specFirstYield env fuel (discoverCandidates env base)

/-- Spec 4.7 per-page sample outcome: none when navigation fails, the
page is block-classified, or the word count is zero. -/
def specPageWordCount (env : Env) (u : String) : Option Nat :=
  (env.navigate u).bind (fun html =>
    if is_probably_cloudflare_block html then none
    else
      match word_count_from_html (env.soup html) with
      | 0 => none
      | n + 1 => some (n + 1))

/-- Spec 4.7 sampleAverageWords: the first sampleSize URLs, skipping
unusable pages; the arithmetic mean of the contributions, and 0 when
nothing contributed. -/
def sampleAverageWords (env : Env) (urls : List String)
    (sampleSize : Nat) : ℚ :=
  let contributing := (urls.take sampleSize).filterMap (specPageWordCount env)
  match contributing with
  | [] => 0
  | _ :: _ => mkRat (contributing.sum : ℤ) contributing.length

/-- Claim C6's amended normalizeBase, stated from the amended wording:
trim; empty input fails; the scheme test is a case-sensitive check for
the literal lowercase prefixes, and https:// is prepended when it fails;
no host fails; the result is scheme://netloc/ with the netloc case
preserved. -/
def specNormalizeBase (input : String) : Except String String :=
  match pyStrip input with
  | t =>
    if t = "" then Except.error "website is leeg"
    else
      let withScheme :=
        if strStarts t "http://" || strStarts t "https://" then t
        else "https://" ++ t
      let parts := pyUrlparse withScheme
      if parts.netloc = "" then Except.error "website url is ongeldig"
      else Except.ok (parts.scheme ++ "://" ++ parts.netloc ++ "/")

/-- One step of the sitemap recursion: b is among the first max_children
children parsed from a's payload, in an environment where a's processing
reaches the recursion (fetch, decompression and block check passed, and
the leaf urls list was empty). -/
def sitemapChildStep (env : Env) (max_children : Nat) (a b : String) : Prop :=
  ∃ children, sitemapFetchStage env a = some ([], children) ∧
    b ∈ children.take max_children

/-- The sitemap recursion on this URL completes within no fuel amount at
the default fan-out cap: the embedding's statement that the source
recursion does not terminate. -/
def divergesOn (env : Env) (url : String) : Prop :=
  ∀ fuel, fetch_all_sitemap_urls env fuel url 50 = none

/-! ### Concrete environments and documents used as test inputs -/

/-- An environment in which every external call fails: every fetch and
navigation raises, decoding yields the empty string, parsing yields
nothing, and URL joining is plain concatenation (exact for joining a
relative name onto a slash-terminated base). -/
def emptyEnv : Env where
  request := fun _ => none
  requestText := fun _ => none
  gunzip := fun _ => none
  decode := fun _ => ""
  fromstring := fun _ => none
  navigate := fun _ => none
  soup := fun _ => HtmlForest.nil
  urljoin := fun b r => b ++ r

/-- A urlset document with the single page URL https://h/p1. -/
def urlsetOneElem : XmlElem :=
  XmlElem.mk "urlset" none (xmlForestOf
    [XmlElem.mk "url" none (xmlForestOf
      [XmlElem.mk "loc" (some "https://h/p1") (xmlForestOf [])])])

/-- A sitemapindex document whose single child is the given URL. -/
def indexWithChild (child : String) : XmlElem :=
  XmlElem.mk "sitemapindex" none (xmlForestOf
    [XmlElem.mk "sitemap" none (xmlForestOf
      [XmlElem.mk "loc" (some child) (xmlForestOf [])])])

/-- Environment for the C1 counterexample: fetching the sitemap whose
PATH (but not whole URL) ends in .gz yields bytes that fail gzip
decompression yet parse as a one-URL urlset. -/
def gzQueryEnv : Env :=
  { emptyEnv with
    request := fun u =>
      if u = "https://h/sitemap.gz?a=1" then some ⟨200, [1]⟩ else none
    gunzip := fun _ => none
    decode := fun _ => "payload"
    fromstring := fun b => if b = [1] then some urlsetOneElem else none }

/-- Environment with a self-referential sitemap index: the sitemap at
https://h/a.xml lists itself as its only child. -/
def cyclicEnv : Env :=
  { emptyEnv with
    request := fun u =>
      if u = "https://h/a.xml" then some ⟨200, [2]⟩ else none
    decode := fun _ => "x"
    fromstring := fun b =>
      if b = [2] then some (indexWithChild "https://h/a.xml") else none }

/-- Environment with a two-level acyclic sitemap tree: an index at
https://h/a.xml pointing at a leaf urlset at https://h/b.xml. -/
def treeEnv : Env :=
  { emptyEnv with
    request := fun u =>
      if u = "https://h/a.xml" then some ⟨200, [3]⟩
      else if u = "https://h/b.xml" then some ⟨200, [4]⟩
      else none
    decode := fun _ => "x"
    fromstring := fun b =>
      if b = [3] then some (indexWithChild "https://h/b.xml")
      else if b = [4] then some urlsetOneElem
      else none }

/-- A depth measure for treeEnv: the index document sits at depth 1,
everything else at depth 0. -/
def treeMeasure (u : String) : Nat :=
  if u = "https://h/a.xml" then 1 else 0

/-- The claim C8 example document: the BeautifulSoup tree of the HTML
string with a script element saying ignore me entirely and a body
saying Hello world. -/
def c8ExampleDom : HtmlForest :=
  htmlForestOf
    [HtmlNode.elem "html" [] (htmlForestOf
      [HtmlNode.elem "script" [] (htmlForestOf [HtmlNode.text "ignore me entirely"]),
       HtmlNode.elem "body" [] (htmlForestOf [HtmlNode.text "Hello world"])])]

/-- An empty-body page: html around an empty body. -/
def c8EmptyBodyDom : HtmlForest :=
  htmlForestOf
    [HtmlNode.elem "html" [] (htmlForestOf
      [HtmlNode.elem "body" [] (htmlForestOf [])])]

/-- A document that is one script subtree and nothing else. -/
def c8ScriptOnlyDom : HtmlForest :=
  htmlForestOf
    [HtmlNode.elem "script" [] (htmlForestOf [HtmlNode.text "alert"])]

/-! ### Helper lemmas -/

theorem filterMap_filter_eq {α β : Type} (p : α → Bool) (f : α → Option β) :
    ∀ l : List α,
      (l.filter p).filterMap f = l.filterMap (fun e => if p e then f e else none) := by
  intro l
  induction l with
  | nil => rfl
  | cons a l ih =>
    by_cases h : p a <;> simp [List.filter_cons, List.filterMap_cons, h, ih]

theorem filterMap_congr_fun {α β : Type} (f g : α → Option β)
    (h : ∀ x, f x = g x) : ∀ l : List α, l.filterMap f = l.filterMap g := by
  intro l
  induction l with
  | nil => rfl
  | cons a l ih => simp [List.filterMap_cons, h a, ih]

theorem filterMap_eq_nil_of_none {α β : Type} (f : α → Option β)
    (h : ∀ x, f x = none) : ∀ l : List α, l.filterMap f = [] := by
  intro l
  induction l with
  | nil => rfl
  | cons a l ih => simp [List.filterMap_cons, h a, ih]

theorem locTextTrimmed_eq_bind (e : XmlElem) :
    locTextTrimmed e = (findChildByLocalName "loc" e).bind (fun locEl =>
      locEl.textContent.bind (fun t => if t = "" then none else some (pyStrip t))) := by
  cases h : findChildByLocalName "loc" e with
  | none => simp [locTextTrimmed, h]
  | some locEl =>
    cases ht : locEl.textContent <;> simp [locTextTrimmed, h, ht]

theorem resolveChildren_eq_mapM (f : String → Option (List String)) :
    ∀ cs : List String,
      resolveChildren f cs = (cs.mapM f).map concatAll := by
  intro cs
  induction cs with
  | nil => rfl
  | cons c rest ih =>
    simp only [resolveChildren, List.mapM_cons, ih]
    cases f c with
    | none => rfl
    | some a =>
      cases rest.mapM f with
      | none => rfl
      | some as => simp [concatAll]

theorem resolveChildren_some (f : String → Option (List String)) :
    ∀ cs : List String, (∀ c ∈ cs, ∃ r, f c = some r) →
      ∃ r, resolveChildren f cs = some r := by
  intro cs
  induction cs with
  | nil => exact fun _ => ⟨[], rfl⟩
  | cons c rest ih =>
    intro h
    obtain ⟨a, ha⟩ := h c (List.mem_cons_self c rest)
    obtain ⟨b, hb⟩ := ih (fun x hx => h x (List.mem_cons_of_mem c hx))
    exact ⟨a ++ b, by simp [resolveChildren, ha, hb]⟩

theorem resolveChildren_of_pointwise (f g : String → Option (List String))
    (hfg : ∀ c r, f c = some r → g c = some r) :
    ∀ cs r, resolveChildren f cs = some r → resolveChildren g cs = some r := by
  intro cs
  induction cs with
  | nil => exact fun r h => h
  | cons c rest ih =>
    intro r h
    simp only [resolveChildren] at h ⊢
    cases hf : f c with
    | none => rw [hf] at h; cases hrest : resolveChildren f rest <;> simp [hrest] at h
    | some a =>
      rw [hf] at h
      cases hrest : resolveChildren f rest with
      | none => simp [hrest] at h
      | some b =>
        rw [hrest] at h
        simp only at h
        rw [hfg c a hf, ih b hrest]
        exact h

theorem fetch_all_mono (env : Env) (mc : Nat) :
    ∀ n m url r, n ≤ m →
      fetch_all_sitemap_urls env n url mc = some r →
      fetch_all_sitemap_urls env m url mc = some r := by
  intro n
  induction n with
  | zero => intro m url r _ h; cases h
  | succ n ih =>
    intro m url r hle h
    cases m with
    | zero => omega
    | succ m =>
      have hnm : n ≤ m := by omega
      cases hstage : sitemapFetchStage env url with
      | none =>
        simp only [fetch_all_sitemap_urls, hstage] at h ⊢
        exact h
      | some uc =>
        obtain ⟨urls, children⟩ := uc
        cases hu : urls.isEmpty with
        | false =>
          simp [fetch_all_sitemap_urls, hstage, hu] at h ⊢
          exact h
        | true =>
          simp [fetch_all_sitemap_urls, hstage, hu] at h ⊢
          exact resolveChildren_of_pointwise _ _
            (fun c r hc => ih m c r hnm hc) _ r h

theorem fetchAll_eq_resolve (env : Env) :
    ∀ (fuel : Nat) (url : String) (mc : Nat),
      fetch_all_sitemap_urls env fuel url mc = resolveSitemapURLs env fuel url mc := by
  intro fuel
  induction fuel with
  | zero => intro url mc; rfl
  | succ fuel ih =>
    intro url mc
    cases hfb : fetch_bytes_with_request env.request url with
    | none =>
      simp [fetch_all_sitemap_urls, resolveSitemapURLs, sitemapFetchStage, hfb]
    | some raw =>
      cases hgz : (if strEnds url ".gz" then env.gunzip raw else some raw) with
      | none =>
        simp [fetch_all_sitemap_urls, resolveSitemapURLs, sitemapFetchStage, hfb, hgz]
      | some payload =>
        by_cases hb : is_probably_cloudflare_block (env.decode payload)
        · simp [fetch_all_sitemap_urls, resolveSitemapURLs, sitemapFetchStage,
            hfb, hgz, hb]
        · cases hp : parse_sitemap_xml env.fromstring payload with
          | mk urls children =>
            cases urls with
            | cons u us =>
              simp [fetch_all_sitemap_urls, resolveSitemapURLs, sitemapFetchStage,
                hfb, hgz, hb, hp]
            | nil =>
              simp only [fetch_all_sitemap_urls, resolveSitemapURLs,
                sitemapFetchStage, hfb, hgz, hb, hp, Bool.false_eq_true,
                List.isEmpty_nil, if_true, if_false, reduceIte]
              rw [resolveChildren_eq_mapM]
              have hfun : (fun child => fetch_all_sitemap_urls env fuel child mc) =
                  (fun c => resolveSitemapURLs env fuel c mc) :=
                funext (fun c => ih c mc)
              rw [hfun]

theorem tryDiscover_eq_candidates (env : Env) (base : String) :
    try_discover_sitemaps env base = discoverCandidates env base := by
  have hwk : DEFAULT_SITEMAP_CANDIDATES.map (fun p => env.urljoin base (lstripSlashes p)) =
      wellKnownSitemapPaths.map (env.urljoin base) := rfl
  simp only [try_discover_sitemaps, discoverCandidates]
  rw [hwk]
  cases fetch_text_with_request env.requestText (env.urljoin base "robots.txt") with
  | none => rfl
  | some txt => rfl

theorem discoverLoop_eq_firstYield (env : Env) (fuel : Nat) :
    ∀ cs, discoverLoop env fuel cs = specFirstYield env fuel cs := by
  intro cs
  induction cs with
  | nil => rfl
  | cons c rest ih =>
    simp only [discoverLoop, specFirstYield, ← fetchAll_eq_resolve]
    cases fetch_all_sitemap_urls env fuel c 50 with
    | none => rfl
    | some urls =>
      cases urls with
      | nil => exact ih
      | cons u us => rfl

theorem same_host_refl (a : String) : same_host a a = true := by
  simp [same_host]

theorem popNext_spec (visited : List String) :
    ∀ queue url rest, popNext visited queue = some (url, rest) →
      url ∈ queue ∧ url ∉ visited ∧ ∀ x ∈ rest, x ∈ queue := by
  intro queue
  induction queue with
  | nil => intro url rest h; cases h
  | cons u q ih =>
    intro url rest h
    simp only [popNext] at h
    by_cases hu : u ∈ visited
    · rw [if_pos hu] at h
      obtain ⟨h1, h2, h3⟩ := ih url rest h
      exact ⟨List.mem_cons_of_mem _ h1, h2,
        fun x hx => List.mem_cons_of_mem _ (h3 x hx)⟩
    · rw [if_neg hu] at h
      simp only [Option.some.injEq, Prod.mk.injEq] at h
      obtain ⟨h1, h2⟩ := h
      subst h1
      subst h2
      exact ⟨List.mem_cons_self _ _, hu,
        fun x hx => List.mem_cons_of_mem _ hx⟩

theorem extract_internal_links_same_host (env : Env)
    (html page_url base_url : String) :
    ∀ u ∈ extract_internal_links env html page_url base_url,
      same_host u base_url = true := by
  intro u hu
  simp only [extract_internal_links, List.mem_filterMap] at hu
  obtain ⟨h0, _, hsome⟩ := hu
  by_cases h1 : pyStrip h0 = ""
  · simp [h1] at hsome
  · simp only [h1, if_neg, reduceIte] at hsome
    by_cases h2 : same_host (urldefrag (env.urljoin page_url (pyStrip h0))) base_url
    · simp only [h2, Bool.not_true, Bool.false_eq_true, reduceIte] at hsome
      by_cases h3 : ((pyUrlparse (urldefrag (env.urljoin page_url (pyStrip h0)))).scheme = "http" ||
          (pyUrlparse (urldefrag (env.urljoin page_url (pyStrip h0)))).scheme = "https") = true
      · simp only [h3, Bool.not_true, Bool.false_eq_true, reduceIte,
          Option.some.injEq] at hsome
        rw [← hsome]
        exact h2
      · simp [h3] at hsome
    · simp [h2] at hsome

theorem crawlGo_sound (env : Env) (base : String) (limit : Nat) :
    ∀ (budget : Nat) (queue visited : List String),
      (∀ u ∈ queue, same_host u base = true) →
      (∀ u ∈ visited, same_host u base = true) →
      visited.length + budget ≤ limit →
      (∀ u ∈ crawlGo env base budget queue visited, same_host u base = true) ∧
      (crawlGo env base budget queue visited).length ≤ limit := by
  intro budget
  induction budget with
  | zero =>
    intro queue visited _ hv hlen
    simp only [crawlGo]
    exact ⟨hv, by omega⟩
  | succ b ih =>
    intro queue visited hq hv hlen
    cases hpop : popNext visited queue with
    | none =>
      simp only [crawlGo, hpop]
      exact ⟨hv, by omega⟩
    | some p =>
      obtain ⟨url, rest⟩ := p
      obtain ⟨hmem, _, hsub⟩ := popNext_spec visited queue url rest hpop
      have hurl : same_host url base = true := hq url hmem
      have hv1 : ∀ u ∈ visited ++ [url], same_host u base = true := by
        intro u hu
        rcases List.mem_append.mp hu with h | h
        · exact hv u h
        · rw [List.mem_singleton.mp h]; exact hurl
      have hlen1 : (visited ++ [url]).length + b ≤ limit := by
        simp only [List.length_append, List.length_singleton]; omega
      have hqrest : ∀ u ∈ rest, same_host u base = true :=
        fun u hu => hq u (hsub u hu)
      simp only [crawlGo, hpop]
      cases env.navigate url with
      | none => exact ih rest (visited ++ [url]) hqrest hv1 hlen1
      | some html =>
        cases hb : is_probably_cloudflare_block html with
        | true =>
          simp only [hb, reduceIte]
          exact ih rest (visited ++ [url]) hqrest hv1 hlen1
        | false =>
          simp only [hb, Bool.false_eq_true, reduceIte]
          refine ih _ (visited ++ [url]) ?_ hv1 hlen1
          intro u hu
          rcases List.mem_append.mp hu with h | h
          · exact hqrest u h
          · exact extract_internal_links_same_host env html url base u
              (List.mem_of_mem_filter h)

theorem crawlGo_visited_mono (env : Env) (base : String) :
    ∀ (budget : Nat) (queue visited : List String),
      ∀ u ∈ visited, u ∈ crawlGo env base budget queue visited := by
  intro budget
  induction budget with
  | zero => intro queue visited u hu; exact hu
  | succ b ih =>
    intro queue visited u hu
    cases hpop : popNext visited queue with
    | none => simp only [crawlGo, hpop]; exact hu
    | some p =>
      obtain ⟨url, rest⟩ := p
      have hu1 : u ∈ visited ++ [url] := List.mem_append.mpr (Or.inl hu)
      simp only [crawlGo, hpop]
      cases env.navigate url with
      | none => exact ih _ _ u hu1
      | some html =>
        cases hb : is_probably_cloudflare_block html with
        | true =>
          simp only [hb, reduceIte]
          exact ih _ _ u hu1
        | false =>
          simp only [hb, Bool.false_eq_true, reduceIte]
          exact ih _ _ u hu1

theorem mem_dedupKeepFirst :
    ∀ (l seen : List String) (x : String),
      x ∈ dedupKeepFirst seen l ↔ x ∈ l ∧ x ∉ seen := by
  intro l
  induction l with
  | nil => intro seen x; simp [dedupKeepFirst]
  | cons u rest ih =>
    intro seen x
    simp only [dedupKeepFirst]
    by_cases hu : u ∈ seen
    · rw [if_pos hu, ih]
      constructor
      · rintro ⟨h1, h2⟩
        exact ⟨List.mem_cons_of_mem _ h1, h2⟩
      · rintro ⟨h1, h2⟩
        rcases List.mem_cons.mp h1 with rfl | h1
        · exact absurd hu h2
        · exact ⟨h1, h2⟩
    · rw [if_neg hu]
      constructor
      · intro hmem
        rcases List.mem_cons.mp hmem with rfl | hmem
        · exact ⟨List.mem_cons_self _ _, hu⟩
        · obtain ⟨h1, h2⟩ := (ih (u :: seen) x).mp hmem
          exact ⟨List.mem_cons_of_mem _ h1,
            fun hs => h2 (List.mem_cons_of_mem _ hs)⟩
      · rintro ⟨h1, h2⟩
        rcases List.mem_cons.mp h1 with rfl | h1
        · exact List.mem_cons_self _ _
        · by_cases hxu : x = u
          · subst hxu
            exact List.mem_cons_self _ _
          · exact List.mem_cons_of_mem _ ((ih (u :: seen) x).mpr
              ⟨h1, fun hs => (List.mem_cons.mp hs).elim hxu h2⟩)

theorem nodup_dedupKeepFirst :
    ∀ (l seen : List String), (dedupKeepFirst seen l).Nodup := by
  intro l
  induction l with
  | nil => intro seen; simp [dedupKeepFirst]
  | cons u rest ih =>
    intro seen
    simp only [dedupKeepFirst]
    by_cases hu : u ∈ seen
    · rw [if_pos hu]; exact ih seen
    · rw [if_neg hu]
      refine List.nodup_cons.mpr ⟨?_, ih (u :: seen)⟩
      intro hmem
      exact ((mem_dedupKeepFirst rest (u :: seen) u).mp hmem).2
        (List.mem_cons_self _ _)

theorem length_insertSorted (x : String) :
    ∀ l, (insertSorted x l).length = l.length + 1 := by
  intro l
  induction l with
  | nil => rfl
  | cons y ys ih =>
    simp only [insertSorted]
    by_cases h : strLeB x y
    · rw [if_pos h]; rfl
    · rw [if_neg h]
      simp [ih]

theorem length_insertionSortStr :
    ∀ l, (insertionSortStr l).length = l.length := by
  intro l
  induction l with
  | nil => rfl
  | cons x xs ih => simp [insertionSortStr, length_insertSorted, ih]

theorem length_pySortedDistinct_eq_card (l : List String) :
    (pySortedDistinct l).length = l.toFinset.card := by
  unfold pySortedDistinct
  rw [length_insertionSortStr]
  have hmem : ∀ x, x ∈ dedupKeepFirst [] l ↔ x ∈ l := by
    intro x
    rw [mem_dedupKeepFirst]
    simp
  have hfin : (dedupKeepFirst [] l).toFinset = l.toFinset := by
    apply Finset.ext
    intro x
    simp only [List.mem_toFinset]
    exact hmem x
  rw [← hfin, List.toFinset_card_of_nodup (nodup_dedupKeepFirst l [])]

/-! ### Claim theorems -/

/-- Claim C1 counterexample: for the sitemap URL whose path (but not
whole URL string) ends in .gz, in an environment where the fetched bytes
fail gzip decompression yet parse as a one-URL urlset, the claim's
reference algorithm (decompression keyed on the URL path, failure giving
the empty list) yields the empty list while the source yields the
sitemap's URL: the source keys decompression on the whole URL string. -/
theorem c1_counterexample :
    strEnds (pyUrlparse "https://h/sitemap.gz?a=1").path ".gz" = true ∧
    gzQueryEnv.gunzip [1] = none ∧
    fetch_all_sitemap_urls gzQueryEnv 1 "https://h/sitemap.gz?a=1" 50 =
      some ["https://h/p1"] ∧
    resolveSitemapURLsClaim gzQueryEnv 1 "https://h/sitemap.gz?a=1" 50 = some [] :=
  ⟨rfl, rfl, rfl, rfl⟩

/-- Claim C1 amended: fetch_all_sitemap_urls follows the reference
algorithm with the gzip step keyed on the full URL string ending in .gz
(not the URL path): a failed fetch yields the empty list; decompression
failure yields the empty list; a block-classified payload yields the
empty list; a non-empty parsed urls list is returned as-is with children
ignored; otherwise the first max_children children are recursively
resolved and concatenated in order.  Stated as agreement, at every fuel,
with the reference definition. -/
theorem c1_resolve_reference :
    ∀ (env : Env) (fuel : Nat) (url : String) (mc : Nat),
      fetch_all_sitemap_urls env fuel url mc = resolveSitemapURLs env fuel url mc :=
  fun env fuel url mc => fetchAll_eq_resolve env fuel url mc

/-- Claim C2: the discovery candidate list is the robots-declared
sitemaps (only when the robots fetch succeeds and is not
block-classified) followed by the four well-known paths, deduplicated
first-seen; and the discovery loop returns, for the first candidate
whose resolution is non-empty, that list trimmed, empties dropped,
deduplicated first-seen, never trying later candidates, and the empty
list when no candidate yields anything.  Stated as agreement with the
spec's discoverCandidates and discoverViaSitemaps at every fuel. -/
theorem c2_discovery_first_success :
    ∀ (env : Env) (fuel : Nat) (base : String),
      try_discover_sitemaps env base = discoverCandidates env base ∧
      discover_urls_from_sitemaps env fuel base = discoverViaSitemaps env fuel base := by
  intro env fuel base
  refine ⟨tryDiscover_eq_candidates env base, ?_⟩
  unfold discover_urls_from_sitemaps discoverViaSitemaps
  rw [tryDiscover_eq_candidates]
  exact discoverLoop_eq_firstYield env fuel _

/-- Claim C3 counterexample: in the environment whose sitemap at
https://h/a.xml is a sitemapindex listing itself, the recursion never
completes, whatever the fuel: the claim's assertion that
resolveSitemapURLs terminates for every fetch environment is false on
cyclic sitemap graphs. -/
theorem c3_counterexample : divergesOn cyclicEnv "https://h/a.xml" := by
  intro fuel
  induction fuel with
  | zero => rfl
  | succ n ih =>
    have h1 : fetch_all_sitemap_urls cyclicEnv (n + 1) "https://h/a.xml" 50 =
        resolveChildren (fun c => fetch_all_sitemap_urls cyclicEnv n c 50)
          ["https://h/a.xml"] := rfl
    rw [h1]
    simp [resolveChildren, ih]

/-- Claim C3 amended: the recursion terminates on every fetch
environment whose sitemap child graph admits a decreasing depth measure
(in particular on every acyclic sitemap tree), the recursion ending at
leaf urlset payloads or fetch failure; on cyclic sitemap graphs it does
not terminate. -/
theorem c3_termination_measure (env : Env) (mc : Nat) (m : String → Nat)
    (hm : ∀ a b, sitemapChildStep env mc a b → m b < m a) :
    ∀ a, ∃ r, fetch_all_sitemap_urls env (m a + 1) a mc = some r := by
  suffices h : ∀ k a, m a < k → ∃ r, fetch_all_sitemap_urls env (m a + 1) a mc = some r by
    exact fun a => h (m a + 1) a (Nat.lt_succ_self _)
  intro k
  induction k with
  | zero => intro a ha; omega
  | succ k ih =>
    intro a ha
    cases hstage : sitemapFetchStage env a with
    | none => exact ⟨[], by simp [fetch_all_sitemap_urls, hstage]⟩
    | some uc =>
      obtain ⟨urls, children⟩ := uc
      cases urls with
      | cons u us => exact ⟨u :: us, by simp [fetch_all_sitemap_urls, hstage]⟩
      | nil =>
        have hex : ∀ b ∈ children.take mc, ∃ r,
            fetch_all_sitemap_urls env (m a) b mc = some r := by
          intro b hb
          have hlt : m b < m a := hm a b ⟨children, hstage, hb⟩
          obtain ⟨r, hr⟩ := ih b (by omega)
          exact ⟨r, fetch_all_mono env mc (m b + 1) (m a) b r (by omega) hr⟩
        obtain ⟨r, hr⟩ := resolveChildren_some _ _ hex
        refine ⟨r, ?_⟩
        simp only [fetch_all_sitemap_urls, hstage, List.isEmpty_nil, if_pos]
        exact hr

/-- Claim C3 witness: the two-level acyclic tree environment terminates
with the fuel given by its depth measure. -/
theorem c3_termination_witness :
    ∃ r, fetch_all_sitemap_urls treeEnv (treeMeasure "https://h/a.xml" + 1)
      "https://h/a.xml" 50 = some r := by
  refine c3_termination_measure treeEnv 50 treeMeasure ?_ "https://h/a.xml"
  intro a b hstep
  obtain ⟨children, hstage, hb⟩ := hstep
  by_cases ha : a = "https://h/a.xml"
  · subst ha
    have h1 : sitemapFetchStage treeEnv "https://h/a.xml" =
        some ([], ["https://h/b.xml"]) := rfl
    rw [h1] at hstage
    simp only [Option.some.injEq, Prod.mk.injEq] at hstage
    rw [← hstage.2] at hb
    simp only [List.take, List.mem_singleton] at hb
    subst hb
    decide
  · by_cases hbu : a = "https://h/b.xml"
    · subst hbu
      have h1 : sitemapFetchStage treeEnv "https://h/b.xml" =
          some (["https://h/p1"], []) := rfl
      rw [h1] at hstage
      simp at hstage
    · have h1 : sitemapFetchStage treeEnv a = none := by
        simp [sitemapFetchStage, fetch_bytes_with_request, treeEnv, emptyEnv, ha, hbu]
      rw [h1] at hstage
      cases hstage

/-- Claim C5: parse_sitemap_xml satisfies its full contract on every
payload: malformed XML (a failed fromstring) yields both lists empty
with no error; a urlset root (namespace-agnostic, case-insensitive)
yields every descendant url's first loc text, trimmed, in document
order, with empty children; a sitemapindex root yields every descendant
sitemap's loc text as children with empty urls; any other root yields
both lists empty; elements with missing or empty loc text are skipped.
Stated as agreement with the contract written from the spec's words. -/
theorem c5_parse_sitemap_contract :
    ∀ (fromstring : List Nat → Option XmlElem) (b : List Nat),
      parse_sitemap_xml fromstring b = specParseSitemap fromstring b := by
  intro fromstring b
  unfold parse_sitemap_xml specParseSitemap
  cases fromstring b with
  | none => rfl
  | some root =>
    simp only
    by_cases h1 : pyLower (strip_ns root.tag) = "urlset"
    · simp only [h1, if_pos rfl]
      simp [specCollectLocs, filterMap_filter_eq]
      exact filterMap_congr_fun _ _
        (fun e => by by_cases hp : strip_ns e.tag = "url" <;>
          simp [hp, locTextTrimmed_eq_bind]) _
    · by_cases h2 : pyLower (strip_ns root.tag) = "sitemapindex"
      · simp only [h1, h2, if_neg, if_pos rfl, reduceIte]
        simp [specCollectLocs, filterMap_filter_eq]
        exact filterMap_congr_fun _ _
          (fun e => by by_cases hp : strip_ns e.tag = "sitemap" <;>
            simp [hp, locTextTrimmed_eq_bind]) _
      · simp [h1, h2]

/-- Claim C6 counterexample: on the input HTTPS://Example.com/x the
source returns ok with the string https://HTTPS:/ (the case-sensitive
prefix test fails, https:// is prepended, and the resulting netloc is
HTTPS:), which is not the lower-cased https://example.com/ the claim
asserts. -/
theorem c6_counterexample :
    normalize_base_url "HTTPS://Example.com/x" = Except.ok "https://HTTPS:/" ∧
    "https://HTTPS:/" ≠ "https://example.com/" :=
  ⟨rfl, by decide⟩

/-- Claim C6 amended: normalize_base_url trims whitespace, fails on
empty input and on a host-less result, and prepends https:// exactly
when the trimmed input does not start with the literal lowercase
http:// or https:// (the scheme test is case-sensitive); the returned
base preserves the netloc's case.  In particular example.com maps to
https://example.com/, the empty string fails, and HTTPS://Example.com/x
maps to https://HTTPS:/.  Stated as agreement with the amended
reference definition plus the three concrete evaluations. -/
theorem c6_normalize_amended :
    (∀ s, normalize_base_url s = specNormalizeBase s) ∧
    normalize_base_url "example.com" = Except.ok "https://example.com/" ∧
    normalize_base_url "" = Except.error "website is leeg" ∧
    normalize_base_url "HTTPS://Example.com/x" = Except.ok "https://HTTPS:/" := by
  refine ⟨fun s => ?_, rfl, rfl, rfl⟩
  unfold normalize_base_url specNormalizeBase
  by_cases h0 : pyStrip s = ""
  · simp [h0]
  · by_cases h1 : strStarts (pyStrip s) "http://" <;>
      by_cases h2 : strStarts (pyStrip s) "https://" <;>
      simp [h0, h1, h2]

/-- Claim C8: word counting removes script, style and noscript subtrees
entirely (documents with equal scrubbed forests count equally), counts 2
on the html document with a script saying ignore me entirely and a body
saying Hello world, and counts 0 on an empty-body page. -/
theorem c8_word_count :
    word_count_from_html c8ExampleDom = 2 ∧
    word_count_from_html c8EmptyBodyDom = 0 ∧
    (∀ d e : HtmlForest, stripBlockedF d = stripBlockedF e →
      word_count_from_html d = word_count_from_html e) ∧
    ∀ d : HtmlForest,
      pyCollapseWs (joinWith " " (htmlTextsF (stripBlockedF d))) = "" →
      word_count_from_html d = 0 := by
  refine ⟨rfl, rfl, fun d e h => ?_, fun d h => ?_⟩
  · unfold word_count_from_html
    rw [h]
  · simp only [word_count_from_html]
    rw [h]
    rfl

/-- Claim C8 witness: a document that is only a script subtree scrubs to
the empty forest and counts like the empty document. -/
theorem c8_word_count_witness :
    stripBlockedF c8ScriptOnlyDom = stripBlockedF (htmlForestOf []) ∧
    word_count_from_html c8ScriptOnlyDom = word_count_from_html (htmlForestOf []) :=
  ⟨rfl, c8_word_count.2.2.1 _ _ rfl⟩

/-- Claim C9: compute_average_words takes exactly the first sample_size
URLs, skips pages whose navigation fails, whose HTML is
block-classified, or whose word count is zero, and returns the
arithmetic mean of the remaining counts, with 0 (not an error) when
nothing contributed; in particular it is 0 whenever every navigation
fails.  Stated as agreement with the spec's sampleAverageWords plus the
all-failures case. -/
theorem c9_sample_average :
    (∀ (env : Env) (urls : List String) (n : Nat),
       compute_average_words env urls n = sampleAverageWords env urls n) ∧
    (∀ (env : Env) (urls : List String) (n : Nat),
       (∀ u, env.navigate u = none) → compute_average_words env urls n = 0) := by
  constructor
  · intro env urls n
    unfold compute_average_words sampleAverageWords
    rw [filterMap_congr_fun _ (specPageWordCount env) (fun u => ?_) (urls.take n)]
    · cases (urls.take n).filterMap (specPageWordCount env) <;> simp
    · unfold specPageWordCount
      cases env.navigate u with
      | none => rfl
      | some html =>
        by_cases hb : is_probably_cloudflare_block html
        · simp [hb]
        · cases hw : word_count_from_html (env.soup html) <;> simp [hb, hw]
  · intro env urls n h
    unfold compute_average_words
    rw [filterMap_eq_nil_of_none _ (fun u => by rw [h u]) (urls.take n)]
    rfl

/-- Claim C9 witness: in the environment where every navigation fails,
the sample average over two URLs is 0. -/
theorem c9_sample_average_witness :
    compute_average_words emptyEnv ["https://a/", "https://b/"] 10 = 0 :=
  c9_sample_average.2 emptyEnv ["https://a/", "https://b/"] 10 (fun _ => rfl)

/-- Claim C4: for every environment, base URL and limit, the fallback
crawl returns only URLs whose host matches the base host
(case-insensitively), and never visits more than limit URLs, however
large the link graph: only same-host http/https links are enqueued and
the loop stops once the visited set reaches the limit. -/
theorem c4_crawl_host_and_limit :
    ∀ (env : Env) (base_url : String) (limit : Nat),
      (fallback_crawl_internal env base_url limit).all
        (fun u => same_host u base_url) = true ∧
      (fallback_crawl_internal env base_url limit).length ≤ limit := by
  intro env base limit
  have hq : ∀ u ∈ [base], same_host u base = true := by
    intro u hu
    rw [List.mem_singleton.mp hu]
    exact same_host_refl base
  have hv : ∀ u ∈ ([] : List String), same_host u base = true := by
    intro u hu
    cases hu
  have h := crawlGo_sound env base limit limit [base] [] hq hv (by simp)
  exact ⟨List.all_eq_true.mpr (fun u hu => h.1 u hu), h.2⟩

/-- Claim C10: the crawl marks a URL visited before navigating, so URLs
whose navigation fails or whose page is block-classified stay in the
returned list; in particular, for every environment and every limit of
at least 1 the returned list contains the base URL itself, even when the
base page is unreachable or blocked (the environment is arbitrary, so
this covers navigation failure and block classification of the base
page). -/
theorem c10_base_always_visited :
    ∀ (env : Env) (base_url : String) (limit : Nat), 1 ≤ limit →
      base_url ∈ fallback_crawl_internal env base_url limit := by
  intro env base limit hl
  obtain ⟨l, rfl⟩ : ∃ l, limit = l + 1 := ⟨limit - 1, by omega⟩
  unfold fallback_crawl_internal
  have hpop : popNext [] [base] = some (base, []) := rfl
  have hbase : base ∈ ([] : List String) ++ [base] := by simp
  simp only [crawlGo, hpop]
  cases env.navigate base with
  | none => exact crawlGo_visited_mono env base l [] ([] ++ [base]) base hbase
  | some html =>
    cases hb : is_probably_cloudflare_block html with
    | true =>
      simp only [hb, reduceIte]
      exact crawlGo_visited_mono env base l [] ([] ++ [base]) base hbase
    | false =>
      simp only [hb, Bool.false_eq_true, reduceIte]
      exact crawlGo_visited_mono env base l _ ([] ++ [base]) base hbase

/-- Claim C10 witness: with limit 1 and every navigation failing, the
crawl still returns the base URL. -/
theorem c10_base_always_visited_witness :
    "https://e/" ∈ fallback_crawl_internal emptyEnv "https://e/" 1 :=
  c10_base_always_visited emptyEnv "https://e/" 1 (by decide)

/-- Claim C7 counterexample: main strips the website argument before
storing it in the Result, so for the input with surrounding spaces the
assembled Result carries the trimmed string, not the original input
exactly as given. -/
theorem c7_counterexample :
    runMain emptyEnv 1 "id7" " example.com " =
      some { website := "example.com", total_pages := 1,
             average_words := 0, id := "id7" } ∧
    "example.com" ≠ " example.com " :=
  ⟨rfl, by decide⟩

/-- Claim C7 amended: every completed run assembles a Result whose
website is the whitespace-trimmed original input (otherwise
uncanonicalized, not URL-normalized), whose id is the trimmed id
argument, whose total_pages is the number of distinct same-host URLs
after filtering (deduplication and lexicographic sorting preserve that
count), and whose average_words is the sample average over the sorted
distinct list rounded to 2 decimal places. -/
theorem c7_result_amended :
    ∀ (env : Env) (fuel : Nat) (argv1 argv2 : String) (r : Result),
      runMain env fuel argv1 argv2 = some r →
      r.website = pyStrip argv2 ∧ r.id = pyStrip argv1 ∧
      ∃ base found, normalize_base_url (pyStrip argv2) = Except.ok base ∧
        collectedUrls env fuel base = some found ∧
        r.total_pages = (found.filter (fun u => same_host u base)).toFinset.card ∧
        r.average_words = pyRound2 (compute_average_words env
          (pySortedDistinct (found.filter (fun u => same_host u base))) 10) := by
  intro env fuel a1 a2 r h
  simp only [runMain] at h
  split at h
  · cases h
  · rename_i base heqn
    split at h
    · cases h
    · rename_i found heqc
      simp only [Option.some.injEq] at h
      subst h
      refine ⟨rfl, rfl, base, found, heqn, heqc, ?_, rfl⟩
      exact length_pySortedDistinct_eq_card _

/-- Claim C7 witness: the amended theorem applied to the all-failing
environment run on the spaced input. -/
theorem c7_result_amended_witness :
    ({ website := "example.com", total_pages := 1,
       average_words := 0, id := "id7" } : Result).website =
      pyStrip " example.com " :=
  (c7_result_amended emptyEnv 1 "id7" " example.com "
    { website := "example.com", total_pages := 1,
      average_words := 0, id := "id7" } rfl).1

end SiteMetrics
